import Mathlib

/-!
Verification of the entain repository's query-composition core (sports
events repository and racing races repository) via a shallow embedding
in Lean 4.

Strings are modelled as lists of characters (`Str`); the Go standard
library operations used by the source (`strings.TrimSpace`,
`strings.Split`, `strings.Replace`, `strings.Repeat`, `strings.Join`)
are embedded as executable recursive functions below.
-/

/-- Strings, modelled as lists of characters. -/
abbrev Str := List Char

/-- Convert a Lean string literal to the `Str` model. -/
def str (s : String) : Str := s.data

/-- Go `unicode.IsSpace`: the Unicode White_Space property
(ASCII: tab, LF, VT, FF, CR, space; plus NEL, NBSP and the
non-Latin-1 space code points). -/
def goIsSpace (c : Char) : Bool :=
  c = ' ' || c = '\t' || c = '\n' || c.val = 11 || c.val = 12 || c = '\r' ||
  c.val = 0x85 || c.val = 0xA0 || c.val = 0x1680 ||
  (0x2000 ≤ c.val && c.val ≤ 0x200A) ||
  c.val = 0x2028 || c.val = 0x2029 || c.val = 0x202F || c.val = 0x205F ||
  c.val = 0x3000

/-- Go `strings.TrimSpace`: drop leading and trailing white space. -/
def trimSpace (s : Str) : Str :=
  ((s.dropWhile goIsSpace).reverse.dropWhile goIsSpace).reverse

/-- Go `strings.Split` on a comma separator: split around each comma;
splitting the empty string yields one empty piece. -/
def splitComma : Str → List Str
  | [] => [[]]
  | c :: cs =>
    if c = ',' then [] :: splitComma cs
    else
      match splitComma cs with
      | [] => [[c]]
      | t :: ts => (c :: t) :: ts

/-- Go `strings.Replace` of two consecutive spaces by one space, with
no replacement limit: scanning left to right, replace each
non-overlapping occurrence of a two-space pair by a single space. -/
def replace2sp : Str → Str
  | [] => []
  | [c] => [c]
  | c :: d :: cs =>
    if c = ' ' ∧ d = ' ' then ' ' :: replace2sp cs
    else c :: replace2sp (d :: cs)

/-- Go `strings.Join(parts, sep)`. -/
def joinSep (sep : Str) : List Str → Str
  | [] => []
  | [s] => s
  | s :: ss => s ++ sep ++ joinSep sep ss

/-- Go `strings.Repeat(s, n)`. -/
def strRepeat (s : Str) : Nat → Str
  | 0 => []
  | n + 1 => s ++ strRepeat s n

/-- Number of occurrences of character `c` in `s` (used to count `?`
placeholders). -/
def countChar (c : Char) (s : Str) : Nat := s.countP (fun d => d = c)

/-- Whether `s` starts with `pre`. -/
def strStartsWith : Str → Str → Bool
  | _, [] => true
  | [], _ :: _ => false
  | c :: cs, d :: ds => c = d && strStartsWith cs ds

/-- Whether `sub` occurs in `s` as a contiguous substring. -/
def strHasSub (sub : Str) : Str → Bool
  | [] => sub.isEmpty
  | c :: cs => strStartsWith (c :: cs) sub || strHasSub sub cs

namespace Sports

/-- `sports.ListEventsRequestFilter`: the structured filter for listing
sports events.  Ids are int64 values, modelled as integers (no arithmetic
is performed on them). -/
structure ListEventsRequestFilter where
  sportIds : List Int
deriving DecidableEq, Repr

/-- `getEventQueries()[eventsList]` from sports/db/queries.go: the base
list query template (a Go raw-string literal; whitespace reproduced
exactly). -/
def eventsListQuery : Str :=
  str "\n\t\t\tSELECT \n\t\t\t\tid, \n\t\t\t\tsport_id, \n\t\t\t\tname, \n\t\t\t\tadvertised_start_time, \n\t\t\t\tstatus \n\t\t\tFROM events\n\t\t"

/-- `(*sportsRepo).applyFilter` from the sports repository: returns the
formulated query and query parameter values based on the provided filter
values.  A `none` filter models the Go nil pointer. -/
def applyFilter (query : Str) (filter : Option ListEventsRequestFilter) :
    Str × List Int :=
  match filter with
  | none => (query, [])
  | some f =>
    let (clauses, args) :=
      if 0 < f.sportIds.length then
        ([str "sport_id IN (" ++ strRepeat (str "?,") (f.sportIds.length - 1) ++ str "?)"],
         f.sportIds)
      else ([], [])
    if clauses.length ≠ 0 then
      (query ++ str " WHERE " ++ joinSep (str " AND ") clauses, args)
    else (query, args)

/-- The loop of `(*sportsRepo).applyOrder` that builds `validFields`:
split the order-by string on commas, collapse double spaces and trim
white space around each field, and keep the non-empty fields. -/
def validOrderFields (orderBy : Str) : List Str :=
  ((splitComma orderBy).map (fun v => trimSpace (replace2sp v))).filter
    (fun v => v ≠ [])

/-- `(*sportsRepo).applyOrder`: appends an order by clause based on the
order specified in the request. -/
def applyOrder (query : Str) (orderBy : Str) : Str :=
  if trimSpace orderBy = [] then
    query ++ str " ORDER BY advertised_start_time"
  else if validOrderFields orderBy = [] then
    query ++ str " ORDER BY advertised_start_time"
  else
    query ++ str " ORDER BY " ++ joinSep (str ", ") (validOrderFields orderBy)

/-- A raw database row as scanned by `rows.Scan` in `scanEvents`:
the five stored columns of the events table.  The advertised start
time is the `time.Time` value read from the store, modelled abstractly
(type parameter `T`). -/
structure RawEventRow (T : Type) where
  id : Int
  sportId : Int
  name : Str
  advertisedStart : T
  status : Int
deriving DecidableEq, Repr

/-- One iteration of the `rows.Next()` / `rows.Scan` loop: either the scan
succeeds and yields a row, fails with `sql.ErrNoRows`, or fails with some
other scan error `e`. -/
inductive ScanOutcome (E T : Type) where
  | row (r : RawEventRow T)
  | errNoRows
  | scanFailure (e : E)
deriving DecidableEq, Repr

/-- A `sports.Event` domain record as produced by `scanEvents`: the stored
columns plus the converted wire timestamp (type parameter `W`). -/
structure Event (W : Type) where
  id : Int
  sportId : Int
  name : Str
  advertisedStartTime : W
  status : Int
deriving DecidableEq, Repr

/-- The errors a repository call can surface.  Query, scan and conversion
errors carry the underlying error value verbatim; `notFound` models
`status.Error(codes.NotFound, msg)`, the distinct gRPC NotFound condition. -/
inductive RepoError (E : Type) where
  | queryError (e : E)
  | scanError (e : E)
  | convError (e : E)
  | notFound (msg : Str)
deriving DecidableEq, Repr

/-- The loop body of `(*sportsRepo).scanEvents`: `acc` is the slice of
events appended so far.  On `sql.ErrNoRows` the Go code returns
`(nil, nil)`; on any other scan error it returns `(nil, err)`; on a
timestamp-conversion failure (`ptypes.TimestampProto`) it returns
`(nil, err)`; otherwise it appends the event and continues. -/
def scanEventsLoop {E T W : Type} (conv : T → Except E W)
    (acc : List (Event W)) :
    List (ScanOutcome E T) → List (Event W) × Option (RepoError E)
  | [] => (acc, none)
  | .errNoRows :: _ => ([], none)
  | .scanFailure e :: _ => ([], some (.scanError e))
  | .row r :: rest =>
    match conv r.advertisedStart with
    | .error e => ([], some (.convError e))
    | .ok ts =>
      scanEventsLoop conv
        (acc ++ [⟨r.id, r.sportId, r.name, ts, r.status⟩]) rest

/-- `(*sportsRepo).scanEvents`: converts scanned rows into domain events.
`conv` embeds `ptypes.TimestampProto`, the conversion from the stored
start time to the wire timestamp representation. -/
def scanEvents {E T W : Type} (conv : T → Except E W)
    (rows : List (ScanOutcome E T)) :
    List (Event W) × Option (RepoError E) :=
  scanEventsLoop conv [] rows

/-- `(*sportsRepo).List`: template, then filter compiler, then order
compiler, then one query execution (`exec` embeds `db.Query`: it maps the
final query text and bound parameters to either a query-execution error
or the scanned rows), then the row mapper. -/
def listEvents {E T W : Type}
    (exec : Str → List Int → Except E (List (ScanOutcome E T)))
    (conv : T → Except E W)
    (filter : Option ListEventsRequestFilter) (orderBy : Str) :
    List (Event W) × Option (RepoError E) :=
  let query := eventsListQuery
  let (query, args) := applyFilter query filter
  let query := applyOrder query orderBy
  match exec query args with
  | .error e => ([], some (.queryError e))
  | .ok rows => scanEvents conv rows

/-- `(*sportsRepo).Get`: appends the fixed predicate to the template,
executes, scans, and maps an empty result to the NotFound condition. -/
def getEvent {E T W : Type}
    (exec : Str → List Int → Except E (List (ScanOutcome E T)))
    (conv : T → Except E W) (id : Int) :
    Option (Event W) × Option (RepoError E) :=
  let query := eventsListQuery ++ str " WHERE id = ?"
  let args := [id]
  match exec query args with
  | .error e => (none, some (.queryError e))
  | .ok rows =>
    let (events, err) := scanEvents conv rows
    if events.length = 0 then
      (none, some (.notFound (str "Event was not found")))
    else
      (events.head?, err)

/-- The mutable state of a `sportsRepo` relevant to `Init`: the store
state `σ` and the `sync.Once` guard (`done` is set after the guarded
function has run once). -/
structure RepoState (σ : Type) where
  db : σ
  initDone : Bool

/-- `(*sportsRepo).Init`: `var err error; r.init.Do(func() { err = r.seed() });
return err`.  `seed` embeds `(*sportsRepo).seed` abstractly as a store
action returning the new store state and an optional error.  Per
`sync.Once.Do`, the function runs only if the guard is unset; when it does
not run, the local `err` keeps its zero value `nil`. -/
def Init {σ E : Type} (seed : σ → σ × Option E) (r : RepoState σ) :
    RepoState σ × Option E :=
  if r.initDone then (r, none)
  else
    let (db, e) := seed r.db
    ({ db := db, initDone := true }, e)

end Sports

namespace Racing

/-- `racing.ListRacesRequestFilter`: the structured filter for listing
races. -/
structure ListRacesRequestFilter where
  meetingIds : List Int
  showVisibleOnly : Bool
deriving DecidableEq, Repr

/-- Modelled from the spec: `(*racesRepo).applyFilter`, whose source file
is not in the repository snapshot (only its tests and the query template
are).  Per spec §4.2: a nil filter leaves the query unchanged with no
parameters; a non-empty grouping-id set appends `meeting_id IN (?, …)`
with one placeholder per id and the ids (in input order) as bound
parameters; a true visibility flag appends `visible = 1` as an inlined
literal with no bound parameter; predicates are joined with ` AND ` and
prefixed with ` WHERE ` when any predicate was added.  The exact clause
texts are pinned by racing/db/races_test.go (`applyFilterTests`). -/
def applyFilter (query : Str) (filter : Option ListRacesRequestFilter) :
    Str × List Int :=
  match filter with
  | none => (query, [])
  | some f =>
    let (clauses, args) :=
      if 0 < f.meetingIds.length then
        ([str "meeting_id IN (" ++ strRepeat (str "?,") (f.meetingIds.length - 1) ++ str "?)"],
         f.meetingIds)
      else ([], [])
    let clauses :=
      if f.showVisibleOnly then clauses ++ [str "visible = 1"] else clauses
    if clauses.length ≠ 0 then
      (query ++ str " WHERE " ++ joinSep (str " AND ") clauses, args)
    else (query, args)

/-- The status column computed by the races list query template in
racing/db/queries.go: `CASE WHEN datetime(advertised_start_time,
localtime) >= datetime(now, localtime) THEN 0 ELSE 1 END status`.
`localtime` embeds SQLite's conversion of a stored instant to local
time; both the stored advertised start time and the current time pass
through it before the comparison. -/
def raceStatusColumn (localtime : Int → Int) (advertisedStart now : Int) : Int :=
  if localtime now ≤ localtime advertisedStart then 0 else 1

/-- Race status integer code 0: OPEN. -/
def raceStatusOpen : Int := 0

/-- Race status integer code 1: CLOSED. -/
def raceStatusClosed : Int := 1

/-- The persisted columns of the races table, from the `CREATE TABLE races`
statement in racing/db/races_test.go (`setupDb`). -/
def racesTableColumns : List Str :=
  [str "id", str "meeting_id", str "name", str "number", str "visible",
   str "advertised_start_time"]

end Racing

/-- The IN clause the sports filter compiler builds for `n` sport ids. -/
def sportIdInClause (n : Nat) : Str :=
  str "sport_id IN (" ++ strRepeat (str "?,") (n - 1) ++ str "?)"

/-- The IN clause the races filter compiler builds for `n` meeting ids. -/
def meetingIdInClause (n : Nat) : Str :=
  str "meeting_id IN (" ++ strRepeat (str "?,") (n - 1) ++ str "?)"

/-- An execution function that fails, reporting the issued query text and
bound parameters as the error value: running a repository operation
against it exposes exactly the query and parameters that operation sends
to the store. -/
def probeExec (T : Type) :
    Str → List Int →
      Except (Str × List Int) (List (Sports.ScanOutcome (Str × List Int) T)) :=
  fun q args => Except.error (q, args)

/-- A sample stored row whose advertised start time the sample conversion
function below rejects. -/
def badRow : Sports.RawEventRow Unit := ⟨1, 1, [], (), 0⟩

/-- A scanned row list holding just the bad row. -/
def badRows : List (Sports.ScanOutcome Unit Unit) := [.row badRow]

/-- A wire-timestamp conversion that rejects every stored start time. -/
def badConv : Unit → Except Unit Unit := fun _ => Except.error ()

/-- An execution function that always yields the bad rows. -/
def badExec : Str → List Int → Except Unit (List (Sports.ScanOutcome Unit Unit)) :=
  fun _ _ => Except.ok badRows

/-- A seed action that always fails. -/
def failSeed : Unit → Unit × Option Unit := fun u => (u, some ())

/-- A freshly constructed repository state: the once guard is unset. -/
def freshRepo : Sports.RepoState Unit := ⟨(), false⟩

/-- Counting a character distributes over appending. -/
theorem countChar_append (c : Char) (s t : Str) :
    countChar c (s ++ t) = countChar c s + countChar c t :=
  List.countP_append _ _ _

/-- Each repetition of a placeholder-comma pair holds one placeholder. -/
theorem countChar_strRepeat_qc : ∀ n : Nat, countChar '?' (strRepeat (str "?,") n) = n
  | 0 => rfl
  | n + 1 => by
    have h1 : countChar '?' (str "?,") = 1 := rfl
    rw [strRepeat, countChar_append, countChar_strRepeat_qc n, h1]
    omega

/-- Every string starts with the empty string. -/
theorem strStartsWith_nil (s : Str) : strStartsWith s [] = true := by
  cases s <;> rfl

/-- A string starts with any of its leading segments. -/
theorem strStartsWith_append (sub t : Str) : strStartsWith (sub ++ t) sub = true := by
  induction sub with
  | nil => exact strStartsWith_nil t
  | cons c cs ih => simp [strStartsWith, ih]

/-- A leading occurrence is an occurrence. -/
theorem strHasSub_of_startsWith {sub s : Str} (h : strStartsWith s sub = true) :
    strHasSub sub s = true := by
  cases s with
  | nil =>
    cases sub with
    | nil => rfl
    | cons d ds => simp [strStartsWith] at h
  | cons c cs => simp [strHasSub, h]

/-- An occurrence survives prepending more text. -/
theorem strHasSub_append_left (sub s q : Str) (h : strHasSub sub s = true) :
    strHasSub sub (q ++ s) = true := by
  induction q with
  | nil => simpa using h
  | cons c cs ih =>
    simp only [List.cons_append, strHasSub, Bool.or_eq_true]
    exact Or.inr ih

/-- Trimming yields the empty string exactly when the string is all
white space. -/
theorem trimSpace_eq_nil_iff (s : Str) :
    trimSpace s = [] ↔ ∀ c ∈ s, goIsSpace c := by
  unfold trimSpace
  rw [List.reverse_eq_nil_iff, List.dropWhile_eq_nil_iff]
  constructor
  · intro h c hc
    have hsplit : c ∈ s.takeWhile goIsSpace ++ s.dropWhile goIsSpace := by
      rw [List.takeWhile_append_dropWhile]
      exact hc
    rcases List.mem_append.mp hsplit with h1 | h2
    · exact List.mem_takeWhile_imp h1
    · exact h c (List.mem_reverse.mpr h2)
  · intro h c hc
    exact h c ((List.dropWhile_sublist goIsSpace).mem (List.mem_reverse.mp hc))

/-- Every character of a comma-split token comes from the split string
and is not a comma. -/
theorem splitComma_tokens : ∀ (s : Str), ∀ t ∈ splitComma s, ∀ c ∈ t, c ∈ s ∧ c ≠ ','
  | [] => by
    intro t ht c hc
    simp only [splitComma, List.mem_singleton] at ht
    subst ht
    simp at hc
  | a :: as => by
    intro t ht c hc
    by_cases ha : a = ','
    · rw [splitComma, if_pos ha] at ht
      rcases List.mem_cons.mp ht with h | h
      · subst h; simp at hc
      · have hrec := splitComma_tokens as t h c hc
        exact ⟨List.mem_cons_of_mem a hrec.1, hrec.2⟩
    · rw [splitComma, if_neg ha] at ht
      rcases hsp : splitComma as with _ | ⟨t0, ts⟩
      · rw [hsp] at ht
        simp only [List.mem_singleton] at ht
        subst ht
        rcases List.mem_singleton.mp hc with rfl
        exact ⟨List.mem_cons_self _ _, ha⟩
      · rw [hsp] at ht
        rcases List.mem_cons.mp ht with h | h
        · subst h
          rcases List.mem_cons.mp hc with rfl | h2
          · exact ⟨List.mem_cons_self _ _, ha⟩
          · have hrec := splitComma_tokens as t0 (by rw [hsp]; exact List.mem_cons_self _ _) c h2
            exact ⟨List.mem_cons_of_mem a hrec.1, hrec.2⟩
        · have hrec := splitComma_tokens as t (by rw [hsp]; exact List.mem_cons_of_mem _ h) c hc
          exact ⟨List.mem_cons_of_mem a hrec.1, hrec.2⟩

/-- Double-space collapsing introduces no new characters. -/
theorem mem_replace2sp : ∀ (s : Str), ∀ c ∈ replace2sp s, c ∈ s := by
  intro s
  induction s using replace2sp.induct with
  | case1 =>
    intro c hc
    simp [replace2sp] at hc
  | case2 c =>
    intro d hd
    simpa [replace2sp] using hd
  | case3 c d cs h ih =>
    intro e he
    rw [replace2sp, if_pos h] at he
    rcases List.mem_cons.mp he with rfl | h2
    · rw [h.1]; exact List.mem_cons_self _ _
    · exact List.mem_cons_of_mem _ (List.mem_cons_of_mem _ (ih e h2))
  | case4 c d cs h ih =>
    intro e he
    rw [replace2sp, if_neg h] at he
    rcases List.mem_cons.mp he with rfl | h2
    · exact List.mem_cons_self _ _
    · exact List.mem_cons_of_mem _ (ih e h2)

/-- A string of commas and white space yields no valid order fields. -/
theorem validOrderFields_nil_of_sep (orderBy : Str)
    (h : ∀ c ∈ orderBy, c = ',' ∨ goIsSpace c) :
    Sports.validOrderFields orderBy = [] := by
  unfold Sports.validOrderFields
  rw [List.filter_eq_nil_iff]
  intro t ht
  rcases List.mem_map.mp ht with ⟨tok, htok, rfl⟩
  have hall : ∀ c ∈ replace2sp tok, goIsSpace c := by
    intro c hc
    have hmem := mem_replace2sp tok c hc
    have h2 := splitComma_tokens orderBy tok htok c hmem
    rcases h c h2.1 with hcomma | hws
    · exact absurd hcomma h2.2
    · exact hws
  simp [(trimSpace_eq_nil_iff _).mpr hall]

/-- A surviving order field forces a non-blank order-by string. -/
theorem trimSpace_ne_nil_of_validOrderFields (orderBy : Str)
    (h : Sports.validOrderFields orderBy ≠ []) : trimSpace orderBy ≠ [] := by
  intro hts
  exact h (validOrderFields_nil_of_sep orderBy
    (fun c hc => Or.inr ((trimSpace_eq_nil_iff orderBy).mp hts c hc)))

/-- Every query produced by the order compiler carries an ORDER BY clause. -/
theorem applyOrder_hasOrderBy (q orderBy : Str) :
    strHasSub (str " ORDER BY ") (Sports.applyOrder q orderBy) = true := by
  have hdef : strHasSub (str " ORDER BY ") (str " ORDER BY advertised_start_time") = true := by
    decide
  unfold Sports.applyOrder
  by_cases h1 : trimSpace orderBy = []
  · rw [if_pos h1]
    exact strHasSub_append_left _ _ _ hdef
  · rw [if_neg h1]
    by_cases h2 : Sports.validOrderFields orderBy = []
    · rw [if_pos h2]
      exact strHasSub_append_left _ _ _ hdef
    · rw [if_neg h2, List.append_assoc]
      exact strHasSub_append_left _ _ _
        (strHasSub_of_startsWith (strStartsWith_append _ _))

/-- If the scan loop keeps any event, it reports no error. -/
theorem scanEventsLoop_ne_nil_err_none {E T W : Type} (conv : T → Except E W) :
    ∀ (rows : List (Sports.ScanOutcome E T)) (acc : List (Sports.Event W)),
      (Sports.scanEventsLoop conv acc rows).1 ≠ [] →
      (Sports.scanEventsLoop conv acc rows).2 = none
  | [], acc => fun _ => rfl
  | .errNoRows :: rest, acc => fun _ => rfl
  | .scanFailure e :: rest, acc => fun h => absurd rfl h
  | .row r :: rest, acc => by
    intro h
    rw [Sports.scanEventsLoop] at h ⊢
    cases hc : conv r.advertisedStart with
    | error e =>
      rw [hc] at h
      exact absurd rfl h
    | ok ts =>
      rw [hc] at h
      exact scanEventsLoop_ne_nil_err_none conv rest _ h

/-- If the row mapper yields any event, it reports no error. -/
theorem scanEvents_ne_nil_err_none {E T W : Type} (conv : T → Except E W)
    (rows : List (Sports.ScanOutcome E T))
    (h : (Sports.scanEvents conv rows).1 ≠ []) :
    (Sports.scanEvents conv rows).2 = none :=
  scanEventsLoop_ne_nil_err_none conv rows [] h

/-- C1: for every base query and every filter whose SportIds list is
non-empty with length n, applyFilter returns the base query extended with
a WHERE clause holding the single predicate sport_id IN with exactly n
placeholders, and the n ids as bound parameters in input order. -/
theorem C1_applyFilter_in_clause (q : Str) (ids : List Int) (h : ids ≠ []) :
    Sports.applyFilter q (some ⟨ids⟩) =
      (q ++ str " WHERE " ++ sportIdInClause ids.length, ids) ∧
    countChar '?' (sportIdInClause ids.length) = ids.length := by
  have hl : 0 < ids.length := List.length_pos.mpr h
  constructor
  · simp [Sports.applyFilter, sportIdInClause, hl, joinSep]
  · unfold sportIdInClause
    rw [countChar_append, countChar_append, countChar_strRepeat_qc]
    have h1 : countChar '?' (str "sport_id IN (") = 0 := rfl
    have h2 : countChar '?' (str "?)") = 1 := rfl
    rw [h1, h2]
    omega

/-- C1 witness: the theorem applied to a two-id filter. -/
theorem C1_applyFilter_in_clause_witness :
    ([5, 10] : List Int) ≠ [] ∧
    (Sports.applyFilter (str "Q") (some ⟨[5, 10]⟩) =
        (str "Q" ++ str " WHERE " ++ sportIdInClause 2, [5, 10]) ∧
      countChar '?' (sportIdInClause 2) = 2) :=
  ⟨by decide, C1_applyFilter_in_clause (str "Q") [5, 10] (by decide)⟩

/-- C2: for every base query and every order-by string with at least one
surviving field, applyOrder splits the string on commas, collapses each
double space and trims each token, discards tokens that become empty, and
appends the survivors verbatim after an ORDER BY, rejoined with a comma
and space, in input order. -/
theorem C2_applyOrder_fields (q orderBy : Str)
    (h : Sports.validOrderFields orderBy ≠ []) :
    Sports.applyOrder q orderBy =
      q ++ str " ORDER BY " ++ joinSep (str ", ") (Sports.validOrderFields orderBy) := by
  have ht : ¬trimSpace orderBy = [] := trimSpace_ne_nil_of_validOrderFields orderBy h
  simp [Sports.applyOrder, ht, h]

/-- C2 witness: the theorem applied to an order-by string with empty
segments, a direction suffix and surplus spaces. -/
theorem C2_applyOrder_fields_witness :
    Sports.validOrderFields (str "sport_id desc,, ,advertised_start_time") ≠ [] ∧
    Sports.applyOrder (str "Q") (str "sport_id desc,, ,advertised_start_time") =
      str "Q ORDER BY sport_id desc, advertised_start_time" :=
  ⟨by decide,
   (C2_applyOrder_fields (str "Q") (str "sport_id desc,, ,advertised_start_time")
      (by decide)).trans (by decide)⟩

/-- C6: a nil filter and an all-default filter (no grouping ids, and for
races a false visibility flag) leave the query unchanged character for
character, with an empty bound-parameter list, in the sports and races
filter compilers alike. -/
theorem C6_applyFilter_default (q : Str) :
    Sports.applyFilter q none = (q, []) ∧
    Sports.applyFilter q (some ⟨[]⟩) = (q, []) ∧
    Racing.applyFilter q none = (q, []) ∧
    Racing.applyFilter q (some ⟨[], false⟩) = (q, []) :=
  ⟨rfl, rfl, rfl, rfl⟩

/-- C7: an order-by string made only of commas and white space (in
particular an empty or blank one), on which no token survives trimming,
makes applyOrder append the default ORDER BY advertised_start_time. -/
theorem C7_applyOrder_default (q orderBy : Str)
    (h : ∀ c ∈ orderBy, c = ',' ∨ goIsSpace c) :
    Sports.applyOrder q orderBy = q ++ str " ORDER BY advertised_start_time" := by
  have hv := validOrderFields_nil_of_sep orderBy h
  unfold Sports.applyOrder
  by_cases ht : trimSpace orderBy = []
  · rw [if_pos ht]
  · rw [if_neg ht, if_pos hv]

/-- C7 witness: the theorem applied to a blank-and-comma string. -/
theorem C7_applyOrder_default_witness :
    (∀ c ∈ str "  ,  ", c = ',' ∨ goIsSpace c) ∧
    Sports.applyOrder (str "Q") (str "  ,  ") =
      str "Q" ++ str " ORDER BY advertised_start_time" :=
  ⟨by decide, C7_applyOrder_default (str "Q") (str "  ,  ") (by decide)⟩

/-- C8: for races, a filter with a true visibility flag appends the
predicate visible = 1 as an inlined literal with no bound parameter, and
combined with a non-empty grouping-id set the generated clause is WHERE
meeting_id IN followed by AND visible = 1, predicates in that fixed
order. -/
theorem C8_races_visible_filter (q : Str) (ids : List Int) (h : ids ≠ []) :
    Racing.applyFilter q (some ⟨[], true⟩) =
      (q ++ str " WHERE " ++ str "visible = 1", []) ∧
    Racing.applyFilter q (some ⟨ids, true⟩) =
      (q ++ str " WHERE " ++
        (meetingIdInClause ids.length ++ str " AND " ++ str "visible = 1"), ids) := by
  have hl : 0 < ids.length := List.length_pos.mpr h
  constructor
  · rfl
  · simp [Racing.applyFilter, meetingIdInClause, hl, joinSep]

/-- C8 witness: the theorem applied to a one-id filter, matching the
clause texts pinned by the racing filter tests. -/
theorem C8_races_visible_filter_witness :
    ([5] : List Int) ≠ [] ∧
    (Racing.applyFilter (str "Q") (some ⟨[], true⟩) =
        (str "Q" ++ str " WHERE " ++ str "visible = 1", []) ∧
      Racing.applyFilter (str "Q") (some ⟨[5], true⟩) =
        (str "Q" ++ str " WHERE " ++
          (meetingIdInClause 1 ++ str " AND " ++ str "visible = 1"), [5])) :=
  ⟨by decide, C8_races_visible_filter (str "Q") [5] (by decide)⟩

/-- C9: the status column of the races list query template is computed at
query time, not read from a stored column: with both sides of the
comparison interpreted in local time, it is the integer code 0 (OPEN)
exactly when the advertised start time is at or after the current time
and 1 (CLOSED) exactly when it is before it, and the races table stores
no status column. -/
theorem C9_race_status_computed (localtime : Int → Int) (s now : Int) :
    (Racing.raceStatusColumn localtime s now = Racing.raceStatusOpen ↔
      localtime now ≤ localtime s) ∧
    (Racing.raceStatusColumn localtime s now = Racing.raceStatusClosed ↔
      localtime s < localtime now) ∧
    str "status" ∉ Racing.racesTableColumns := by
  refine ⟨?_, ?_, by decide⟩
  · unfold Racing.raceStatusColumn Racing.raceStatusOpen
    by_cases h : localtime now ≤ localtime s
    · simp [h]
    · simp [h]
  · unfold Racing.raceStatusColumn Racing.raceStatusClosed
    by_cases h : localtime now ≤ localtime s
    · simp [h, not_lt.mpr h]
    · simp [h, lt_of_not_le h]

/-- C3 counterexample: probing the issued queries shows Get sends the bare
list template with the fixed equality predicate appended, while List (here
with no filter and the default order) sends a query carrying an ORDER BY
clause; Get's query contains no ORDER BY clause at all and differs from
List's query augmented with the predicate, so Get does not run List's full
pipeline. -/
theorem C3_counterexample :
    Sports.getEvent (probeExec Unit) (fun _ => Except.ok ()) 7 =
      (none, some (.queryError (Sports.eventsListQuery ++ str " WHERE id = ?", [7]))) ∧
    Sports.listEvents (probeExec Unit) (fun _ => Except.ok ()) none (str "") =
      ([], some (.queryError (Sports.applyOrder Sports.eventsListQuery (str ""), []))) ∧
    strHasSub (str " ORDER BY ") (Sports.applyOrder Sports.eventsListQuery (str "")) = true ∧
    strHasSub (str " ORDER BY ") (Sports.eventsListQuery ++ str " WHERE id = ?") = false ∧
    Sports.eventsListQuery ++ str " WHERE id = ?" ≠
      Sports.applyOrder Sports.eventsListQuery (str "") ++ str " WHERE id = ?" :=
  ⟨rfl, rfl, by decide, by decide, by decide⟩

/-- C3 amended: Get builds its query directly from the list query
template by appending the fixed equality predicate, with the requested id
as its single bound parameter; it runs neither the filter compiler nor
the order compiler, so unlike every query List issues, Get's query
carries no ORDER BY clause. -/
theorem C3_amended_get_query {T W : Type} (conv : T → Except (Str × List Int) W)
    (id : Int) (filter : Option Sports.ListEventsRequestFilter) (orderBy : Str) :
    Sports.getEvent (probeExec T) conv id =
      (none, some (.queryError (Sports.eventsListQuery ++ str " WHERE id = ?", [id]))) ∧
    Sports.listEvents (probeExec T) conv filter orderBy =
      ([], some (.queryError
        (Sports.applyOrder (Sports.applyFilter Sports.eventsListQuery filter).1 orderBy,
         (Sports.applyFilter Sports.eventsListQuery filter).2))) ∧
    strHasSub (str " ORDER BY ")
      (Sports.applyOrder (Sports.applyFilter Sports.eventsListQuery filter).1 orderBy) = true ∧
    strHasSub (str " ORDER BY ") (Sports.eventsListQuery ++ str " WHERE id = ?") = false := by
  refine ⟨rfl, ?_, applyOrder_hasOrderBy _ _, by decide⟩
  rcases happ : Sports.applyFilter Sports.eventsListQuery filter with ⟨q2, args2⟩
  simp [Sports.listEvents, happ, probeExec]

/-- C4: once the executed query has returned its rows, Get yields the
distinct NotFound condition and no record exactly when the scan produces
zero records, and otherwise returns a record with no error at all (in
particular no NotFound condition). -/
theorem C4_get_notFound {E T W : Type}
    (exec : Str → List Int → Except E (List (Sports.ScanOutcome E T)))
    (conv : T → Except E W) (id : Int) (rows : List (Sports.ScanOutcome E T))
    (hexec : exec (Sports.eventsListQuery ++ str " WHERE id = ?") [id] = Except.ok rows) :
    ((Sports.scanEvents conv rows).1 = [] →
        Sports.getEvent exec conv id =
          (none, some (.notFound (str "Event was not found")))) ∧
    ((Sports.scanEvents conv rows).1 ≠ [] →
        ∃ ev, Sports.getEvent exec conv id = (some ev, none)) := by
  constructor
  · intro hnil
    simp [Sports.getEvent, hexec, hnil]
  · intro hne
    have herr := scanEvents_ne_nil_err_none conv rows hne
    rcases hsc : Sports.scanEvents conv rows with ⟨events, err⟩
    rw [hsc] at hne herr
    simp only at hne herr
    cases events with
    | nil => exact absurd rfl hne
    | cons e es =>
      refine ⟨e, ?_⟩
      subst herr
      simp [Sports.getEvent, hexec, hsc]

/-- C4 witness: the theorem applied to an empty store. -/
theorem C4_get_notFound_witness :
    (fun (_ : Str) (_ : List Int) =>
        (Except.ok [] : Except Unit (List (Sports.ScanOutcome Unit Unit))))
      (Sports.eventsListQuery ++ str " WHERE id = ?") [1] = Except.ok [] ∧
    Sports.getEvent
        (fun (_ : Str) (_ : List Int) =>
          (Except.ok [] : Except Unit (List (Sports.ScanOutcome Unit Unit))))
        (fun _ => Except.ok ()) 1 =
      (none, some (.notFound (str "Event was not found"))) :=
  ⟨rfl, (C4_get_notFound _ _ 1 [] rfl).1 rfl⟩

/-- C5 counterexample: with a stored start time the conversion rejects,
the scan aborts with that conversion error, yet Get returns the NotFound
condition in its place and not the conversion error — the error is
replaced by another outcome, contradicting the claim for Get. -/
theorem C5_counterexample :
    (Sports.scanEvents badConv badRows).2 = some (.convError ()) ∧
    Sports.getEvent badExec badConv 1 =
      (none, some (.notFound (str "Event was not found"))) ∧
    (Sports.getEvent badExec badConv 1).2 ≠ some (.convError ()) :=
  ⟨rfl, rfl, by decide⟩

/-- C5 amended: when the scan of the returned rows aborts with a
timestamp-conversion error, List returns that conversion error verbatim
and no records; Get, whose scan then yields zero records, replaces the
conversion error with the NotFound condition and returns no record. -/
theorem C5_amended_conv_error {E T W : Type}
    (exec : Str → List Int → Except E (List (Sports.ScanOutcome E T)))
    (conv : T → Except E W) (rows : List (Sports.ScanOutcome E T)) (e : E)
    (hconv : (Sports.scanEvents conv rows).2 = some (.convError e)) :
    (∀ filter orderBy,
        exec (Sports.applyOrder (Sports.applyFilter Sports.eventsListQuery filter).1 orderBy)
            (Sports.applyFilter Sports.eventsListQuery filter).2 = Except.ok rows →
        Sports.listEvents exec conv filter orderBy = ([], some (.convError e))) ∧
    (∀ id, exec (Sports.eventsListQuery ++ str " WHERE id = ?") [id] = Except.ok rows →
        Sports.getEvent exec conv id =
          (none, some (.notFound (str "Event was not found")))) := by
  have hnil : (Sports.scanEvents conv rows).1 = [] := by
    by_contra hne
    rw [scanEvents_ne_nil_err_none conv rows hne] at hconv
    exact Option.noConfusion hconv
  constructor
  · intro filter orderBy hexec
    rcases happ : Sports.applyFilter Sports.eventsListQuery filter with ⟨q2, args2⟩
    rw [happ] at hexec
    simp only at hexec
    simp only [Sports.listEvents, happ, hexec]
    rw [Prod.ext_iff]
    exact ⟨hnil, hconv⟩
  · intro id hexec
    simp [Sports.getEvent, hexec, hnil]

/-- C5 amended witness: the amended theorem applied to the failing
conversion fixtures, at an empty filter, default order, and id 1. -/
theorem C5_amended_conv_error_witness :
    (Sports.scanEvents badConv badRows).2 = some (.convError ()) ∧
    Sports.listEvents badExec badConv none (str "") = ([], some (.convError ())) ∧
    Sports.getEvent badExec badConv 1 =
      (none, some (.notFound (str "Event was not found"))) :=
  ⟨rfl,
   (C5_amended_conv_error badExec badConv badRows () rfl).1 none (str "") rfl,
   (C5_amended_conv_error badExec badConv badRows () rfl).2 1 rfl⟩

/-- C10 counterexample: with a seed that fails, the first Init call
returns the seed error, but a second call on the resulting state returns
nil rather than the first call's error — a subsequent call does not
observe the first call's outcome as its own result. -/
theorem C10_counterexample :
    (Sports.Init failSeed freshRepo).2 = some () ∧
    (Sports.Init failSeed (Sports.Init failSeed freshRepo).1).2 = none ∧
    (Sports.Init failSeed (Sports.Init failSeed freshRepo).1).2 ≠
      (Sports.Init failSeed freshRepo).2 :=
  ⟨rfl, rfl, by decide⟩

/-- C10 amended: Init runs the seed at most once per repository
instance: the first call (once guard unset) runs the seed, marks the
guard, and returns the seed's completion or error; every call on a
marked instance leaves the state unchanged, does not run the seed, and
returns nil regardless of the first call's outcome. -/
theorem C10_amended_init_once {σ E : Type} (seed : σ → σ × Option E) (db : σ)
    (r : Sports.RepoState σ) :
    Sports.Init seed ⟨db, false⟩ = (⟨(seed db).1, true⟩, (seed db).2) ∧
    (r.initDone = true → Sports.Init seed r = (r, none)) := by
  constructor
  · rcases hs : seed db with ⟨db2, e⟩
    simp [Sports.Init, hs]
  · intro h
    simp [Sports.Init, h]

/-- C10 amended witness: the amended theorem applied to a marked
instance, with a seed that fails. -/
theorem C10_amended_init_once_witness :
    (Sports.RepoState.mk () true).initDone = true ∧
    Sports.Init failSeed ⟨(), true⟩ = (⟨(), true⟩, none) :=
  ⟨rfl, (C10_amended_init_once failSeed () ⟨(), true⟩).2 rfl⟩
